import Mathlib

/-!
Shallow embedding of the `minecraft-status` Rust core (`src/rust/src`).

The pure logic of the repository is translated definition by definition:
`mcping_common.rs` (the protocol race), `week_stats.rs` (the durable ping
history and its bucketed aggregation) and `lib.rs` (the status resolution
service, the favicon cache and the storage-key derivation).

I/O is made explicit: the contents of the two per-identity files are passed
in as a `FileState` value describing what reading-and-deserializing the file
would yield (`missing`, `corrupt`, or `valid v`), and the updated file
contents are returned.  The external collaborators (the raw wire-protocol
pings and the identicon generator) are passed in as values: the probe result
as an `Except`, the identicon generator's output for the current input as an
`Option String`.
-/

namespace MinecraftStatus

/-! ## Data model (`mcping_common.rs`) -/

/-- `ProtocolType` from `mcping_common.rs`. -/
inductive ProtocolType
  | java
  | bedrock
  | auto
deriving DecidableEq, Repr

/-- `Version` from `mcping_common.rs`. -/
structure Version where
  name : String
  protocol : Option Int
deriving DecidableEq, Repr

/-- `Player` from `mcping_common.rs`. -/
structure Player where
  name : String
  id : String
deriving DecidableEq, Repr

/-- `Players` from `mcping_common.rs`. -/
structure Players where
  online : Int
  max : Int
  sample : List Player
deriving DecidableEq, Repr

/-- `Response` from `mcping_common.rs`: the unified ping response. -/
structure Response where
  protocol_type : ProtocolType
  latency : Nat
  version : Version
  players : Players
  motd : String
  favicon : Option String
deriving DecidableEq, Repr

/-- Model of `mcping::Error` (the external crate's error type).  Only the
variant structure needed by this repository is modelled: a DNS failure, an
I/O error with a timeout kind and message, and a catch-all. -/
inductive PingError
  | dnsLookupFailed
  | ioTimedOut (msg : String)
  | other (msg : String)
deriving DecidableEq, Repr

/-! ## Protocol race (`mcping_common.rs`, `get_status_auto`) -/

/-- The single aggregated failure `get_status_auto` returns when neither
thread produced a successful response:
`mcping::Error::IoError(io::Error::new(TimedOut, "neither thread returned a valid response"))`. -/
def aggregated_failure : PingError :=
  .ioTimedOut "neither thread returned a valid response"

/-- The receive loop of `get_status_auto`: walk the channel arrivals in
order, return the first `Ok` response immediately, and fall through to the
aggregated failure when the arrivals are exhausted (`for _ in 0..2` over a
channel that receives exactly the two thread results). -/
def recv_loop : List (Except PingError Response) → Except PingError Response
  | [] => .error aggregated_failure
  | .ok response :: _ => .ok response
  | .error _ :: rest => recv_loop rest

/-- `get_status_auto` from `mcping_common.rs`, with the scheduling
nondeterminism made explicit: the Java and Bedrock probes each produce one
result, and `java_arrives_first` says which one reaches the channel first. -/
def get_status_auto (java_result bedrock_result : Except PingError Response)
    (java_arrives_first : Bool) : Except PingError Response :=
  recv_loop
    (if java_arrives_first then [java_result, bedrock_result]
     else [bedrock_result, java_result])

/-! ## Week stats (`week_stats.rs`) -/

/-- `HistoryEntry` from `week_stats.rs`. -/
structure HistoryEntry where
  online : Int
  max : Int
deriving DecidableEq, Repr

instance : Inhabited HistoryEntry := ⟨⟨0, 0⟩⟩

/-- The `ping_history : BTreeMap<i64, HistoryEntry>` field of
`PingStatsOnDisk`, modelled as an association list from timestamp to entry.
The operations below keep the list sorted strictly ascending by key, the
invariant a `BTreeMap` iteration order provides; none of the derived
statistics depend on the order. -/
abbrev PingHistory := List (Int × HistoryEntry)

/-- The nested helper `fn days(n: i64) -> i64 { 60 * 60 * 24 * n }` of
`PingStatsOnDisk::week_stats`.  `chrono::Duration::days` used by
`trim_outdated` denotes the same number of seconds. -/
def days (n : Int) : Int := 60 * 60 * 24 * n

/-- `PingStatsOnDisk::trim_outdated`: keep exactly the entries whose key is
at least `(now - Duration::days(10)).timestamp()` (the `split_off` at the
cutoff keeps keys greater than or equal to the cutoff). -/
def trim_outdated (h : PingHistory) (now_ts : Int) : PingHistory :=
  h.filter (fun p => decide (now_ts - days 10 ≤ p.1))

/-- Key-ordered insert-or-overwrite into the association list: the effect of
`self.ping_history.entry(k).or_default().update(online, max)`, whose
`update` overwrites both fields unconditionally. -/
def insert_entry : PingHistory → Int → HistoryEntry → PingHistory
  | [], k, e => [(k, e)]
  | (k', e') :: t, k, e =>
    if k < k' then (k, e) :: (k', e') :: t
    else if k = k' then (k, e) :: t
    else (k', e') :: insert_entry t k e

/-- `PingStatsOnDisk::add_data`. -/
def add_data (h : PingHistory) (now_ts current_online current_max : Int) : PingHistory :=
  insert_entry h now_ts ⟨current_online, current_max⟩

/-- Key lookup in the association list (the `BTreeMap` lookup). -/
def lookup_ts : PingHistory → Int → Option HistoryEntry
  | [], _ => none
  | (k', e') :: t, k => if k = k' then some e' else lookup_ts t k

/-- `RangeStats` from `week_stats.rs`. -/
structure RangeStats where
  average_online : Int
  peak_online : Int
  peak_max : Int
deriving DecidableEq, Repr

instance : Inhabited RangeStats := ⟨⟨0, 0, 0⟩⟩

/-- The accumulation loop of `PingStatsOnDisk::range_stats` applied to the
entries that fell inside the requested range: count them, total the `online`
fields, and track both peaks starting from `0`.  The division is Rust `i64`
division, which truncates toward zero (`Int.tdiv`). -/
def stats_of_entries (entries : List HistoryEntry) : RangeStats :=
  let num_entries : Int := entries.length
  let total_online : Int := entries.foldl (fun acc v => acc + v.online) 0
  let pk_online : Int := entries.foldl (fun acc v => Max.max acc v.online) 0
  let pk_max : Int := entries.foldl (fun acc v => Max.max acc v.max) 0
  { average_online := if num_entries = 0 then 0 else Int.tdiv total_online num_entries
    peak_online := pk_online
    peak_max := pk_max }

/-- The two `RangeBounds` shapes `week_stats` passes to `range_stats`:
`lo..hi` and `lo..=hi`. -/
inductive TsRange
  | halfOpen (lo hi : Int)
  | closed (lo hi : Int)
deriving DecidableEq, Repr

/-- Membership of a timestamp in a `TsRange`. -/
def TsRange.holds : TsRange → Int → Bool
  | .halfOpen lo hi, k => decide (lo ≤ k) && decide (k < hi)
  | .closed lo hi, k => decide (lo ≤ k) && decide (k ≤ hi)

/-- `PingStatsOnDisk::range_stats`: statistics over exactly the stored
entries whose timestamp lies in the given range. -/
def range_stats (h : PingHistory) (r : TsRange) : RangeStats :=
  stats_of_entries ((h.filter (fun p => r.holds p.1)).map Prod.snd)

/-- `WeekStats` from `week_stats.rs` (`daily_stats : [RangeStats; 8]`). -/
structure WeekStats where
  daily_stats : List RangeStats
  peak_online : Int
  peak_max : Int
deriving DecidableEq, Repr

/-- `Iterator::max().unwrap_or_default()` over a list of `i64`. -/
def iter_max_or_default : List Int → Int
  | [] => 0
  | x :: xs => xs.foldl Max.max x

/-- `PingStatsOnDisk::week_stats`: the eight bucket statistics, written out
exactly as the source's array literal, plus the two global peaks taken as
the maximum over the eight buckets. -/
def week_stats (h : PingHistory) (now_timestamp seconds_from_midnight : Int) : WeekStats :=
  let today_midnight := now_timestamp - seconds_from_midnight
  let daily_stats : List RangeStats :=
    [ range_stats h (.halfOpen (today_midnight - days 7) (today_midnight - days 6))
    , range_stats h (.halfOpen (today_midnight - days 6) (today_midnight - days 5))
    , range_stats h (.halfOpen (today_midnight - days 5) (today_midnight - days 4))
    , range_stats h (.halfOpen (today_midnight - days 4) (today_midnight - days 3))
    , range_stats h (.halfOpen (today_midnight - days 3) (today_midnight - days 2))
    , range_stats h (.halfOpen (today_midnight - days 2) (today_midnight - days 1))
    , range_stats h (.halfOpen (today_midnight - days 1) today_midnight)
    , range_stats h (.closed today_midnight now_timestamp) ]
  { daily_stats
    peak_online := iter_max_or_default (daily_stats.map (fun s => s.peak_online))
    peak_max := iter_max_or_default (daily_stats.map (fun s => s.peak_max)) }

/-- Bucket accessor used by the statements below: bucket `i` of the eight
daily statistics. -/
def WeekStats.bucket (w : WeekStats) (i : Fin 8) : RangeStats :=
  w.daily_stats.getD i.val default

/-- What reading and deserializing an on-disk file yields: the file is
absent, or present but undeserializable, or deserializes to a value. -/
inductive FileState (α : Type)
  | missing
  | corrupt
  | valid (value : α)
deriving DecidableEq, Repr

/-- `determine_week_stats` from `week_stats.rs`, with the file system made
explicit.  An absent file starts from `PingStatsOnDisk::default()`; a
present-but-unparsable file starts fresh via `unwrap_or_default()` ("If
parsing fails, we start fresh").  Returns the history that is persisted
back (full overwrite) together with the computed `WeekStats`. -/
def determine_week_stats (file : FileState PingHistory)
    (now_ts seconds_from_midnight current_online current_max : Int) :
    PingHistory × WeekStats :=
  let data : PingHistory :=
    match file with
    | .valid h => h
    | .corrupt => []
    | .missing => []
  let data := add_data (trim_outdated data now_ts) now_ts current_online current_max
  (data, week_stats data now_ts seconds_from_midnight)

/-! ## Status resolution service (`lib.rs`) -/

/-- The media-type header `process_favicon` trims:
`"data:image/png;base64,"`. -/
def favicon_header : String := "data:image/png;base64,"

/-- `str::trim_start_matches` with a string pattern: repeatedly remove the
pattern from the front for as long as it is a prefix. -/
def trim_start_matches (p : List Char) (s : List Char) : List Char :=
  if h : p ≠ [] ∧ p.isPrefixOf s then
    trim_start_matches p (s.drop p.length)
  else s
termination_by s.length
decreasing_by
  have hle : p.length ≤ s.length := (List.isPrefixOf_iff_prefix.mp h.2).length_le
  have hp : 0 < p.length := List.length_pos.mpr h.1
  simp only [List.length_drop]
  omega

/-- `process_favicon` from `lib.rs`: trim off the non-base64 part of the
favicon string. -/
def process_favicon (favicon : String) : String :=
  String.mk (trim_start_matches favicon_header.data favicon.data)

/-- `CString::new(s).ok()`: fails exactly when the string contains an
interior NUL byte. -/
def cstring_new_ok (s : String) : Option String :=
  if s.data.contains (Char.ofNat 0) then none else some s

/-- `CachedFavicon` from `lib.rs`: the on-disk favicon cache record. -/
structure CachedFavicon where
  favicon : Option String
deriving DecidableEq, Repr

/-- `FaviconRaw` from `lib.rs`, with the C string pointers replaced by the
strings they point at. -/
inductive FaviconRaw
  | serverProvided (s : String)
  | generated (s : String)
  | noFavicon
deriving DecidableEq, Repr

/-- `FaviconRaw::from_data_and_options`, with the identicon generator's
output for the current `(protocol_type, address)` input passed in as
`identicon` (the collaborator `make_base64_identicon` is external). -/
def FaviconRaw.from_data_and_options (server_favicon : Option String)
    (identicon : Option String) (always_use_identicon : Bool) : FaviconRaw :=
  let make_generated : FaviconRaw :=
    match identicon.bind cstring_new_ok with
    | some s => .generated s
    | none => .noFavicon
  if always_use_identicon then
    make_generated
  else
    match (server_favicon.map process_favicon).bind cstring_new_ok with
    | some s => .serverProvided s
    | none => make_generated

/-- `McInfoRaw` from `lib.rs`, value-level (C pointers replaced by values). -/
structure McInfoRaw where
  protocol_type : ProtocolType
  latency : Nat
  version : Version
  players : Players
  description : String
  favicon : FaviconRaw
deriving DecidableEq, Repr

/-- `McInfoRaw::new`. -/
def McInfoRaw.new (status : Response) (identicon : Option String)
    (always_use_identicon : Bool) : McInfoRaw :=
  { protocol_type := status.protocol_type
    latency := status.latency
    version := status.version
    players := status.players
    description := status.motd
    favicon := FaviconRaw.from_data_and_options status.favicon identicon always_use_identicon }

/-- The successful outcomes `get_server_status_rust` can construct
(`ServerStatus::Unreachable` is only built at the FFI boundary, from the
`Err` of this function). -/
inductive ServerStatus
  | online (response : McInfoRaw) (stats : WeekStats)
  | offline (favicon : FaviconRaw) (stats : WeekStats)
deriving DecidableEq, Repr

/-- The `anyhow::Error` values `get_server_status_rust` can return, by
provenance.  Unexpected file-system faults (directory creation, read/write
failures) are not modelled: file contents are given as `FileState`. -/
inductive ResolveError
  | emptyServerAddress
  | emptyAppGroupContainer
  | pingFailed (e : PingError)
  | deserializingCachedFavicon
deriving DecidableEq, Repr

/-- The per-server-identity persisted state: the `cached_favicon` file and
the `week_stats` file, each by deserialization outcome. -/
structure ServerStore where
  cached_favicon_file : FileState CachedFavicon
  week_stats_file : FileState PingHistory
deriving DecidableEq, Repr

/-- `get_server_status_rust` from `lib.rs`, with I/O and collaborators made
explicit: `ping_result` is what `mcping_get_status_wrapper` returned,
`identicon` is what `make_base64_identicon` would produce for this input,
`store` holds the two per-identity files, and the updated files are
returned next to the status.

On success the favicon cache record is rewritten to the probe's favicon run
through `process_favicon`, and the week stats ingest the probe's player
counts.  On failure: a missing favicon cache propagates the probe error; a
corrupt one propagates the deserialization error (the `?` after
`serde_json::from_slice` in the `Err` arm); a valid one produces the
`Offline` outcome and records a zero sample. -/
def get_server_status_rust (address : String) (always_use_identicon : Bool)
    (app_group_container : String) (identicon : Option String)
    (ping_result : Except PingError Response) (store : ServerStore)
    (now_ts seconds_from_midnight : Int) :
    Except ResolveError (ServerStatus × ServerStore) :=
  if address = "" then .error .emptyServerAddress
  else if app_group_container = "" then .error .emptyAppGroupContainer
  else
    match ping_result with
    | .ok status =>
        let cached_favicon : CachedFavicon :=
          { favicon := status.favicon.map process_favicon }
        let result := determine_week_stats store.week_stats_file now_ts
          seconds_from_midnight status.players.online status.players.max
        let mcinfo := McInfoRaw.new status identicon always_use_identicon
        .ok (.online mcinfo result.2,
          { cached_favicon_file := .valid cached_favicon
            week_stats_file := .valid result.1 })
    | .error e =>
        match store.cached_favicon_file with
        | .missing => .error (.pingFailed e)
        | .corrupt => .error .deserializingCachedFavicon
        | .valid cached_favicon =>
            let favicon := FaviconRaw.from_data_and_options cached_favicon.favicon
              identicon always_use_identicon
            let result := determine_week_stats store.week_stats_file now_ts
              seconds_from_midnight 0 0
            .ok (.offline favicon result.2,
              { cached_favicon_file := .valid cached_favicon
                week_stats_file := .valid result.1 })

/-- `str::replace` with a single-character pattern and a single-character
replacement string: substitute every occurrence of the pattern character. -/
def replace_char (s : String) (pat repl : Char) : String :=
  String.mk (s.data.map (fun c => if c = pat then repl else c))

/-- The per-server folder name derivation from `get_server_status_rust`:
`format!("{}_{}", address.to_lowercase().replace('.', "_").replace(':', "_"), protocol_type)`,
with the protocol discriminator's rendered form passed as a string and
`to_lowercase` modelled as per-character lowercasing. -/
def server_folder_name (address : String) (protocol_display : String) : String :=
  replace_char (replace_char (String.mk (address.data.map Char.toLower)) '.' '_') ':' '_'
    ++ "_" ++ protocol_display

/-- Two characters agree up to the collapsing performed by the folder-name
derivation: equal, or both drawn from `{'.', ':', '_'}`. -/
def collapse_related (c d : Char) : Bool :=
  c = d || ((c = '.' || c = ':' || c = '_') && (d = '.' || d = ':' || d = '_'))

/-- Two strings differ only in `'.'` versus `':'` versus `'_'` characters. -/
def punct_equiv (a b : String) : Bool :=
  a.data.length = b.data.length
    && (a.data.zip b.data).all (fun p => collapse_related p.1 p.2)

/-- A concrete history for the bucketing scenario of the spec: samples
`{13,40}` at `now − 6d − 12min`, `{40,40}` at `now − 6d + 5h`, `{20,30}` at
`now − 1d` and `{10,30}` at `now`, for `now = 1613290363`
(2021-02-14 08:12:43 UTC, `29563` seconds past midnight). -/
def c8_history : PingHistory :=
  [(1612771243, ⟨13, 40⟩), (1612789963, ⟨40, 40⟩),
   (1613203963, ⟨20, 30⟩), (1613290363, ⟨10, 30⟩)]

/-! ## Helper lemmas -/

theorem foldl_max_init_le (xs : List Int) (a : Int) : a ≤ xs.foldl Max.max a := by
  induction xs generalizing a with
  | nil => simp
  | cons x xs ih => exact le_trans (le_max_left a x) (ih (Max.max a x))

theorem le_foldl_max_of_mem {xs : List Int} {x : Int} (a : Int) (hx : x ∈ xs) :
    x ≤ xs.foldl Max.max a := by
  induction xs generalizing a with
  | nil => cases hx
  | cons y ys ih =>
    rcases List.mem_cons.mp hx with rfl | hmem
    · exact le_trans (le_max_right a x) (foldl_max_init_le ys (Max.max a x))
    · exact ih (Max.max a y) hmem

theorem foldl_max_eq_or_mem (xs : List Int) (a : Int) :
    xs.foldl Max.max a = a ∨ xs.foldl Max.max a ∈ xs := by
  induction xs generalizing a with
  | nil => left; rfl
  | cons y ys ih =>
    rcases ih (Max.max a y) with heq | hmem
    · rw [List.foldl_cons, heq]
      rcases max_choice a y with hc | hc
      · left; exact hc
      · right; rw [hc]; exact List.mem_cons_self y ys
    · right; exact List.mem_cons_of_mem y hmem

theorem le_iter_max_of_mem {l : List Int} {x : Int} (hx : x ∈ l) :
    x ≤ iter_max_or_default l := by
  cases l with
  | nil => cases hx
  | cons y ys =>
    rcases List.mem_cons.mp hx with rfl | hmem
    · exact foldl_max_init_le ys x
    · exact le_foldl_max_of_mem y hmem

theorem iter_max_mem {l : List Int} (hl : l ≠ []) : iter_max_or_default l ∈ l := by
  cases l with
  | nil => exact absurd rfl hl
  | cons y ys =>
    rcases foldl_max_eq_or_mem ys y with heq | hmem
    · rw [iter_max_or_default, heq]; exact List.mem_cons_self y ys
    · exact List.mem_cons_of_mem y hmem

theorem mem_insert_entry {p : Int × HistoryEntry} :
    ∀ {h : PingHistory} {k : Int} {e : HistoryEntry},
      p ∈ insert_entry h k e → p = (k, e) ∨ p ∈ h := by
  intro h
  induction h with
  | nil =>
    intro k e hp
    simp only [insert_entry, List.mem_singleton] at hp
    exact Or.inl hp
  | cons q t ih =>
    intro k e hp
    rw [insert_entry] at hp
    split_ifs at hp with h1 h2
    · rcases List.mem_cons.mp hp with rfl | hmem
      · exact Or.inl rfl
      · exact Or.inr hmem
    · rcases List.mem_cons.mp hp with rfl | hmem
      · exact Or.inl rfl
      · exact Or.inr (List.mem_cons_of_mem q hmem)
    · rcases List.mem_cons.mp hp with rfl | hmem
      · exact Or.inr (List.mem_cons_self q t)
      · rcases ih hmem with heq | hmem2
        · exact Or.inl heq
        · exact Or.inr (List.mem_cons_of_mem q hmem2)

theorem lookup_ts_insert_entry :
    ∀ (h : PingHistory) (k : Int) (e : HistoryEntry),
      lookup_ts (insert_entry h k e) k = some e := by
  intro h
  induction h with
  | nil => intro k e; simp [insert_entry, lookup_ts]
  | cons q t ih =>
    intro k e
    rw [insert_entry]
    split_ifs with h1 h2
    · simp [lookup_ts]
    · simp [lookup_ts]
    · have hne : k ≠ q.1 := by omega
      simp only [lookup_ts, if_neg hne]
      exact ih k e

theorem trim_start_matches_no_leading_match (p : List Char) (hp : p ≠ []) :
    ∀ (s : List Char), p.isPrefixOf (trim_start_matches p s) = false := by
  suffices H : ∀ (n : Nat) (s : List Char), s.length ≤ n →
      p.isPrefixOf (trim_start_matches p s) = false by
    intro s; exact H s.length s le_rfl
  intro n
  induction n with
  | zero =>
    intro s hs
    have hnil : s = [] := List.length_eq_zero.mp (Nat.le_zero.mp hs)
    subst hnil
    rw [trim_start_matches]
    have hfalse : ¬ (p ≠ [] ∧ p.isPrefixOf ([] : List Char)) := by
      rintro ⟨-, hpre⟩
      cases p with
      | nil => exact hp rfl
      | cons a t => simp [List.isPrefixOf] at hpre
    rw [dif_neg hfalse]
    cases p with
    | nil => exact absurd rfl hp
    | cons a t => rfl
  | succ n ih =>
    intro s hs
    rw [trim_start_matches]
    split
    · next hcond =>
      apply ih
      have hle : p.length ≤ s.length := (List.isPrefixOf_iff_prefix.mp hcond.2).length_le
      have hpos : 0 < p.length := List.length_pos.mpr hp
      simp only [List.length_drop]
      omega
    · next hcond =>
      have : ¬ (p.isPrefixOf s = true) := fun hpre => hcond ⟨hp, hpre⟩
      exact Bool.not_eq_true _ ▸ eq_false_of_ne_true this

theorem process_favicon_of_no_header {c : String}
    (hc : favicon_header.data.isPrefixOf c.data = false) : process_favicon c = c := by
  have hfalse : ¬ (favicon_header.data ≠ [] ∧ favicon_header.data.isPrefixOf c.data = true) := by
    rintro ⟨-, hpre⟩
    rw [hc] at hpre
    cases hpre
  unfold process_favicon
  rw [trim_start_matches, dif_neg hfalse]

theorem collapse_map_eq :
    ∀ {l1 l2 : List Char}, l1.length = l2.length →
      (∀ p ∈ l1.zip l2, collapse_related p.1 p.2 = true) →
      (l1.map (fun c => if c = '.' then '_' else c)).map
          (fun c => if c = ':' then '_' else c)
        = (l2.map (fun c => if c = '.' then '_' else c)).map
          (fun c => if c = ':' then '_' else c) := by
  intro l1
  induction l1 with
  | nil =>
    intro l2 hlen _
    cases l2 with
    | nil => rfl
    | cons d t => cases hlen
  | cons c t ih =>
    intro l2 hlen hall
    cases l2 with
    | nil => cases hlen
    | cons d t2 =>
      have hhead : collapse_related c d = true :=
        hall (c, d) (by simp [List.zip_cons_cons])
      have htail := ih (by simpa using hlen)
        (fun p hp => hall p (by simp [List.zip_cons_cons, hp]))
      simp only [List.map_cons]
      rw [htail]
      congr 1
      simp only [collapse_related, Bool.or_eq_true, Bool.and_eq_true,
        decide_eq_true_eq] at hhead
      rcases hhead with rfl | ⟨hc, hd⟩
      · rfl
      · rcases hc with (rfl | rfl) | rfl <;> rcases hd with (rfl | rfl) | rfl <;> rfl

theorem getD_le_iter_max (ds : List RangeStats) (f : RangeStats → Int) (n : Nat)
    (hn : n < ds.length) :
    f (ds.getD n default) ≤ iter_max_or_default (ds.map f) := by
  apply le_iter_max_of_mem
  rw [List.getD_eq_getElem _ _ hn]
  exact List.mem_map_of_mem f (List.getElem_mem hn)

theorem iter_max_eq_getD (ds : List RangeStats) (f : RangeStats → Int)
    (hne : ds ≠ []) :
    ∃ n : Nat, n < ds.length ∧ iter_max_or_default (ds.map f) = f (ds.getD n default) := by
  have hmem := iter_max_mem (l := ds.map f) (by simpa using hne)
  obtain ⟨t, ht, heq⟩ := List.mem_map.mp hmem
  obtain ⟨⟨n, hn⟩, hget⟩ := List.mem_iff_get.mp ht
  refine ⟨n, hn, ?_⟩
  rw [← heq, List.getD_eq_get _ _ hn, hget]

/-! ## Claim theorems -/

/-- C2: in `Auto` mode, if exactly one of the two concurrent probes errors
and the other succeeds, the overall result is success with the successful
protocol's data, whichever probe reaches the channel first; only when both
error does the race return a failure, and that failure is the single
aggregated error. -/
theorem get_status_auto_race_semantics (java_err bedrock_err : PingError)
    (r : Response) (java_arrives_first : Bool) :
    get_status_auto (.error java_err) (.ok r) java_arrives_first = .ok r ∧
    get_status_auto (.ok r) (.error bedrock_err) java_arrives_first = .ok r ∧
    get_status_auto (.error java_err) (.error bedrock_err) java_arrives_first
      = .error aggregated_failure := by
  cases java_arrives_first <;> exact ⟨rfl, rfl, rfl⟩

/-- C3: after the eviction step of one `record()` call at `now`, every
remaining stored timestamp key is at least `now − 10 days`; in particular an
entry at `now − 12 days` is removed and an entry at `now − 2 days` is kept;
moreover the history a full `determine_week_stats` call persists satisfies
the same bound. -/
theorem trim_outdated_eviction_invariant (h : PingHistory) (now_ts : Int) :
    (∀ k e, (k, e) ∈ trim_outdated h now_ts → now_ts - days 10 ≤ k) ∧
    (∀ e, (now_ts - days 12, e) ∉ trim_outdated h now_ts) ∧
    (∀ e, (now_ts - days 2, e) ∈ h →
      (now_ts - days 2, e) ∈ trim_outdated h now_ts) ∧
    (∀ file s o m k e, (k, e) ∈ (determine_week_stats file now_ts s o m).1 →
      now_ts - days 10 ≤ k) := by
  have hkey : ∀ (l : PingHistory) (k : Int) (e : HistoryEntry),
      (k, e) ∈ trim_outdated l now_ts → now_ts - days 10 ≤ k := by
    intro l k e hk
    simpa using (List.mem_filter.mp hk).2
  refine ⟨hkey h, ?_, ?_, ?_⟩
  · intro e hmem
    have h2 := hkey h _ _ hmem
    simp only [days] at h2
    omega
  · intro e hmem
    refine List.mem_filter.mpr ⟨hmem, ?_⟩
    simp only [days, decide_eq_true_eq]
    omega
  · intro file s o m k e hk
    simp only [determine_week_stats, add_data] at hk
    rcases mem_insert_entry hk with heq | hmem
    · have hkn : k = now_ts := congrArg Prod.fst heq
      subst hkn
      simp only [days]
      omega
    · exact hkey _ _ _ hmem

/-- C3 witness: at a concrete history, the 2-day-old entry survives the
eviction step. -/
theorem trim_outdated_eviction_invariant_witness :
    ((1000000 : Int) - days 2, (⟨5, 9⟩ : HistoryEntry)) ∈
      trim_outdated [((1000000 : Int) - days 12, ⟨1, 2⟩),
        ((1000000 : Int) - days 2, ⟨5, 9⟩)] 1000000 :=
  (trim_outdated_eviction_invariant
      [((1000000 : Int) - days 12, ⟨1, 2⟩), ((1000000 : Int) - days 2, ⟨5, 9⟩)]
      1000000).2.2.1 ⟨5, 9⟩ (by decide)

/-- C7: a corrupted week-stats history file makes `record()` behave exactly
as if the prior history were absent (same persisted history, same
`WeekStats`, no failure), and the freshly persisted file holds only the new
sample. -/
theorem determine_week_stats_corrupt_resets
    (now_ts s current_online current_max : Int) :
    determine_week_stats .corrupt now_ts s current_online current_max
      = determine_week_stats .missing now_ts s current_online current_max ∧
    (determine_week_stats .corrupt now_ts s current_online current_max).1
      = [(now_ts, ⟨current_online, current_max⟩)] :=
  ⟨rfl, rfl⟩

/-- C9 counterexample: over a range holding onlines `-1` and `0`, the code's
average is the `i64` (truncating) quotient `0`, not the mathematical floor
`-1` of the sum divided by the count. -/
theorem range_stats_average_not_floor_cex :
    (range_stats [((0 : Int), ⟨-1, 0⟩), (1, ⟨0, 0⟩)]
        (.halfOpen 0 2)).average_online = 0 ∧
    Int.fdiv ((-1) + 0) 2 = -1 ∧
    (range_stats [((0 : Int), ⟨-1, 0⟩), (1, ⟨0, 0⟩)]
        (.halfOpen 0 2)).average_online ≠ Int.fdiv ((-1) + 0) 2 := by
  refine ⟨by decide, by decide, by decide⟩

/-- C9 amended: an empty range yields all zeros, and a non-empty range's
average is the truncating (toward-zero) integer quotient of the online sum
by the count, which coincides with the mathematical floor whenever the sum
is non-negative. -/
theorem range_stats_average_truncating (h : PingHistory) (r : TsRange) :
    ((h.filter (fun p => r.holds p.1)).map Prod.snd = [] →
      range_stats h r = ⟨0, 0, 0⟩) ∧
    (∀ entries, entries = (h.filter (fun p => r.holds p.1)).map Prod.snd →
      entries ≠ [] →
      (range_stats h r).average_online
          = Int.tdiv (entries.foldl (fun acc v => acc + v.online) 0) entries.length ∧
      (0 ≤ entries.foldl (fun acc v => acc + v.online) 0 →
        (range_stats h r).average_online
          = Int.fdiv (entries.foldl (fun acc v => acc + v.online) 0) entries.length)) := by
  constructor
  · intro hemp
    simp only [range_stats, hemp]
    rfl
  · intro entries hent hne
    have hlen : ((entries.length : Int)) ≠ 0 := by
      simpa using fun hcon => hne (List.length_eq_zero.mp hcon)
    have havg : (range_stats h r).average_online
        = Int.tdiv (entries.foldl (fun acc v => acc + v.online) 0) entries.length := by
      simp only [range_stats, stats_of_entries, ← hent]
      rw [if_neg hlen]
    refine ⟨havg, fun hpos => ?_⟩
    rw [havg]
    exact (Int.fdiv_eq_tdiv hpos (Int.natCast_nonneg _)).symm

/-- C9 amended witness: concrete non-empty range with onlines 3 and 4. -/
theorem range_stats_average_truncating_witness :
    (range_stats [((0 : Int), ⟨3, 7⟩), (1, ⟨4, 7⟩)]
        (.halfOpen 0 2)).average_online = 3 := by
  have h := (range_stats_average_truncating
      [((0 : Int), ⟨3, 7⟩), (1, ⟨4, 7⟩)] (.halfOpen 0 2)).2
      [⟨3, 7⟩, ⟨4, 7⟩] (by rfl) (by decide)
  rw [h.1]
  decide

/-- C10: the storage identity is not injective in the address: for a fixed
protocol discriminator, any two addresses whose (per-character) lowercased
forms differ only in `'.'` versus `':'` versus `'_'` characters derive the
identical storage folder; in particular `"a.b"`, `"a:b"` and `"a_b"` are
three distinct addresses sharing one folder. -/
theorem server_folder_name_collision (a b proto : String)
    (hab : punct_equiv (String.mk (a.data.map Char.toLower))
      (String.mk (b.data.map Char.toLower)) = true) :
    server_folder_name a proto = server_folder_name b proto ∧
    server_folder_name "a.b" proto = server_folder_name "a:b" proto ∧
    server_folder_name "a:b" proto = server_folder_name "a_b" proto ∧
    ("a.b" : String) ≠ "a:b" ∧ ("a:b" : String) ≠ "a_b" ∧
    ("a.b" : String) ≠ "a_b" := by
  refine ⟨?_, rfl, rfl, by decide, by decide, by decide⟩
  simp only [punct_equiv, Bool.and_eq_true, decide_eq_true_eq, List.all_eq_true] at hab
  have := collapse_map_eq hab.1 hab.2
  simp only [server_folder_name, replace_char]
  rw [this]

/-- C10 witness: two concrete distinct addresses with the same folder. -/
theorem server_folder_name_collision_witness :
    server_folder_name "A.b" "Java" = server_folder_name "a_b" "Java" :=
  (server_folder_name_collision "A.b" "a_b" "Java" (by decide)).1

/-- C1 counterexample: with the favicon cache file present but
undeserializable and a failed probe, `get_server_status_rust` returns the
deserialization error — an error is propagated and the `resolve()` call
fails — whereas with the file absent the same call returns the probe error;
the two failures are distinct, so corruption is not treated as absence. -/
theorem corrupt_favicon_cache_cex :
    get_server_status_rust "a" false "root" none (.error .dnsLookupFailed)
      ⟨.corrupt, .missing⟩ 0 0 = .error .deserializingCachedFavicon ∧
    get_server_status_rust "a" false "root" none (.error .dnsLookupFailed)
      ⟨.missing, .missing⟩ 0 0 = .error (.pingFailed .dnsLookupFailed) ∧
    ResolveError.deserializingCachedFavicon ≠ ResolveError.pingFailed .dnsLookupFailed :=
  ⟨rfl, rfl, by decide⟩

/-- C1 amended: whenever validation passes, the probe fails, and the
per-identity favicon cache file exists but cannot be deserialized, the
offline fallback propagates the deserialization error and the `resolve()`
call fails (surfaced as Unreachable at the boundary); corruption is not
treated as an absent cache. -/
theorem corrupt_favicon_cache_escalates (address app_root : String) (aui : Bool)
    (identicon : Option String) (e : PingError)
    (stats_file : FileState PingHistory) (now_ts s : Int)
    (ha : address ≠ "") (hr : app_root ≠ "") :
    get_server_status_rust address aui app_root identicon (.error e)
      ⟨.corrupt, stats_file⟩ now_ts s = .error .deserializingCachedFavicon := by
  simp [get_server_status_rust, ha, hr]

/-- C1 amended witness. -/
theorem corrupt_favicon_cache_escalates_witness :
    get_server_status_rust "a" false "r" none (.error .dnsLookupFailed)
      ⟨.corrupt, .missing⟩ 0 0 = .error .deserializingCachedFavicon :=
  corrupt_favicon_cache_escalates "a" "r" false none .dnsLookupFailed .missing 0 0
    (by decide) (by decide)

/-- C5: with a valid favicon cache record present and a failed probe, the
outcome is Offline; the response favicon is the cached value verbatim (for a
normalized, NUL-free cached string), or a generated identicon when the cache
held none or `always_use_identicon` is set; and the persisted week-stats
history gains the entry `{online := 0, max := 0}` at `now`'s timestamp. -/
theorem offline_fallback_semantics (address app_root : String) (aui : Bool)
    (icon : String) (cached : CachedFavicon)
    (stats_file : FileState PingHistory) (e : PingError) (now_ts s : Int)
    (ha : address ≠ "") (hr : app_root ≠ "")
    (hicon : icon.data.contains (Char.ofNat 0) = false) :
    get_server_status_rust address aui app_root (some icon) (.error e)
        ⟨.valid cached, stats_file⟩ now_ts s
      = .ok (.offline
            (FaviconRaw.from_data_and_options cached.favicon (some icon) aui)
            (determine_week_stats stats_file now_ts s 0 0).2,
          ⟨.valid cached, .valid (determine_week_stats stats_file now_ts s 0 0).1⟩) ∧
    lookup_ts (determine_week_stats stats_file now_ts s 0 0).1 now_ts = some ⟨0, 0⟩ ∧
    (aui = true →
      FaviconRaw.from_data_and_options cached.favicon (some icon) aui
        = .generated icon) ∧
    (aui = false → cached.favicon = none →
      FaviconRaw.from_data_and_options cached.favicon (some icon) aui
        = .generated icon) ∧
    (∀ c, aui = false → cached.favicon = some c →
      c.data.contains (Char.ofNat 0) = false →
      favicon_header.data.isPrefixOf c.data = false →
      FaviconRaw.from_data_and_options cached.favicon (some icon) aui
        = .serverProvided c) := by
  have hicon2 : Char.ofNat 0 ∉ icon.data := by simpa using hicon
  refine ⟨?_, ?_, ?_, ?_, ?_⟩
  · simp [get_server_status_rust, ha, hr]
  · exact lookup_ts_insert_entry _ now_ts ⟨0, 0⟩
  · intro haui
    subst haui
    simp [FaviconRaw.from_data_and_options, cstring_new_ok, hicon2]
  · intro haui hnone
    subst haui
    simp [FaviconRaw.from_data_and_options, hnone, cstring_new_ok, hicon2]
  · intro c haui hc hnul hpre
    subst haui
    have hnul2 : Char.ofNat 0 ∉ c.data := by simpa using hnul
    simp [FaviconRaw.from_data_and_options, hc, cstring_new_ok,
      process_favicon_of_no_header hpre, hnul2]

/-- C5 witness. -/
theorem offline_fallback_semantics_witness :
    get_server_status_rust "a" false "r" (some "i") (.error .dnsLookupFailed)
        ⟨.valid ⟨some "abc"⟩, .missing⟩ 0 0
      = .ok (.offline
            (FaviconRaw.from_data_and_options (some "abc") (some "i") false)
            (determine_week_stats .missing 0 0 0 0).2,
          ⟨.valid ⟨some "abc"⟩, .valid (determine_week_stats .missing 0 0 0 0).1⟩) :=
  (offline_fallback_semantics "a" "r" false "i" ⟨some "abc"⟩ .missing
    .dnsLookupFailed 0 0 (by decide) (by decide) (by decide)).1

/-- C6: after every successful probe the persisted favicon cache record is
exactly the probe's favicon run through `process_favicon` (leading
`data:image/png;base64,` header stripped), or `none` when the probe carried
none — fully replacing the arbitrary previous record; and the stored payload
never begins with the header. -/
theorem favicon_cache_replacement (address app_root : String) (aui : Bool)
    (identicon : Option String) (status : Response) (store : ServerStore)
    (now_ts s : Int) (ha : address ≠ "") (hr : app_root ≠ "") :
    get_server_status_rust address aui app_root identicon (.ok status) store now_ts s
      = .ok (.online (McInfoRaw.new status identicon aui)
            (determine_week_stats store.week_stats_file now_ts s
              status.players.online status.players.max).2,
          ⟨.valid ⟨status.favicon.map process_favicon⟩,
            .valid (determine_week_stats store.week_stats_file now_ts s
              status.players.online status.players.max).1⟩) ∧
    (∀ f, status.favicon = some f →
      favicon_header.data.isPrefixOf (process_favicon f).data = false) := by
  constructor
  · simp [get_server_status_rust, ha, hr]
  · intro f _
    exact trim_start_matches_no_leading_match favicon_header.data (by decide) f.data

/-- C6 witness. -/
theorem favicon_cache_replacement_witness :
    get_server_status_rust "a" false "r" none
        (.ok ⟨.java, 63, ⟨"", some 187⟩, ⟨103, 200, []⟩, "",
          some "data:image/png;base64,abc"⟩)
        ⟨.missing, .missing⟩ 0 0
      = .ok (.online (McInfoRaw.new ⟨.java, 63, ⟨"", some 187⟩, ⟨103, 200, []⟩, "",
              some "data:image/png;base64,abc"⟩ none false)
            (determine_week_stats .missing 0 0 103 200).2,
          ⟨.valid ⟨some (process_favicon "data:image/png;base64,abc")⟩,
            .valid (determine_week_stats .missing 0 0 103 200).1⟩) :=
  (favicon_cache_replacement "a" "r" false none
    ⟨.java, 63, ⟨"", some 187⟩, ⟨103, 200, []⟩, "", some "data:image/png;base64,abc"⟩
    ⟨.missing, .missing⟩ 0 0 (by decide) (by decide)).1

/-- C4: `WeekStats` holds exactly 8 `RangeStats`; for `i` in `0..7` bucket
`i` aggregates exactly the stored entries with timestamp in
`[midnight − (7−i) days, midnight − (6−i) days)`, bucket 7 aggregates
exactly the entries in `[midnight, now]` inclusive of `now`, and each of
the top-level `peak_online`/`peak_max` equals the maximum of the
corresponding bucket peak over all 8 buckets. -/
theorem week_stats_bucketing (h : PingHistory) (now_ts s : Int) :
    (week_stats h now_ts s).daily_stats.length = 8 ∧
    (∀ i : Fin 8, i.val < 7 →
      (week_stats h now_ts s).bucket i
        = range_stats h (.halfOpen ((now_ts - s) - days (7 - (i.val : Int)))
            ((now_ts - s) - days (6 - (i.val : Int))))) ∧
    (week_stats h now_ts s).bucket 7 = range_stats h (.closed (now_ts - s) now_ts) ∧
    (∀ i : Fin 8, ((week_stats h now_ts s).bucket i).peak_online
        ≤ (week_stats h now_ts s).peak_online) ∧
    (∃ i : Fin 8, (week_stats h now_ts s).peak_online
        = ((week_stats h now_ts s).bucket i).peak_online) ∧
    (∀ i : Fin 8, ((week_stats h now_ts s).bucket i).peak_max
        ≤ (week_stats h now_ts s).peak_max) ∧
    (∃ i : Fin 8, (week_stats h now_ts s).peak_max
        = ((week_stats h now_ts s).bucket i).peak_max) := by
  have hlen : (week_stats h now_ts s).daily_stats.length = 8 := rfl
  have hne : (week_stats h now_ts s).daily_stats ≠ [] :=
    List.length_pos.mp (by rw [hlen]; norm_num)
  refine ⟨hlen, ?_, ?_, ?_, ?_, ?_, ?_⟩
  · intro i hi
    fin_cases i
    · norm_num [WeekStats.bucket, week_stats, days]
    · norm_num [WeekStats.bucket, week_stats, days]
    · norm_num [WeekStats.bucket, week_stats, days]
    · norm_num [WeekStats.bucket, week_stats, days]
    · norm_num [WeekStats.bucket, week_stats, days]
    · norm_num [WeekStats.bucket, week_stats, days]
    · norm_num [WeekStats.bucket, week_stats, days]
    · norm_num at hi
  · rfl
  · intro i
    exact getD_le_iter_max ((week_stats h now_ts s).daily_stats)
      (fun t => t.peak_online) i.val (by rw [hlen]; exact i.isLt)
  · obtain ⟨n, hn, heq⟩ := iter_max_eq_getD ((week_stats h now_ts s).daily_stats)
      (fun t => t.peak_online) hne
    exact ⟨⟨n, by rw [hlen] at hn; exact hn⟩, heq⟩
  · intro i
    exact getD_le_iter_max ((week_stats h now_ts s).daily_stats)
      (fun t => t.peak_max) i.val (by rw [hlen]; exact i.isLt)
  · obtain ⟨n, hn, heq⟩ := iter_max_eq_getD ((week_stats h now_ts s).daily_stats)
      (fun t => t.peak_max) hne
    exact ⟨⟨n, by rw [hlen] at hn; exact hn⟩, heq⟩

/-- C4 witness: the bucket parametrization at a concrete history and time. -/
theorem week_stats_bucketing_witness :
    (week_stats [((5 : Int), ⟨3, 4⟩)] 100 10).bucket ⟨0, by norm_num⟩
      = range_stats [((5 : Int), ⟨3, 4⟩)]
          (.halfOpen ((100 - 10) - days (7 - ((0 : Nat) : Int)))
            ((100 - 10) - days (6 - ((0 : Nat) : Int)))) :=
  (week_stats_bucketing [((5 : Int), ⟨3, 4⟩)] 100 10).2.1 ⟨0, by norm_num⟩
    (by norm_num)

/-- C8 counterexample: with exactly the four spec samples and `now` past
local midnight (08:12:43 local), bucket 0 — the 7-days-ago bucket — is
empty (all zeros), so it does not combine the two `now − 6d` samples; those
land in bucket 1, which carries average 26 and peak 40. -/
theorem week_stats_day_bucket_cex :
    ((week_stats c8_history 1613290363 29563).bucket 0).average_online = 0 ∧
    ((week_stats c8_history 1613290363 29563).bucket 0).peak_online = 0 ∧
    ¬(((week_stats c8_history 1613290363 29563).bucket 0).average_online = 26 ∧
      ((week_stats c8_history 1613290363 29563).bucket 0).peak_online = 40) ∧
    ((week_stats c8_history 1613290363 29563).bucket 1).average_online = 26 ∧
    ((week_stats c8_history 1613290363 29563).bucket 1).peak_online = 40 ∧
    ((week_stats c8_history 1613290363 29563).bucket 6).peak_online = 20 := by
  decide

/-- C8 amended: given exactly the four spec samples, for every `now` whose
local time is past 00:12 and before 19:00 (so both `now − 6d` samples fall
on the same local calendar day, six days ago), bucket 6 (yesterday) has
`peakOnline = 20` and bucket 1 — the 6-days-ago bucket — combines both
same-day samples, with `averageOnline = (13+40) div 2 = 26` (truncating
division) and `peakOnline = 40`. -/
theorem week_stats_day_bucket_combines (now_ts s : Int)
    (hlo : 720 ≤ s) (hhi : s < 68400) :
    ((week_stats [(now_ts - days 6 - 720, ⟨13, 40⟩),
        (now_ts - days 6 + 18000, ⟨40, 40⟩), (now_ts - days 1, ⟨20, 30⟩),
        (now_ts, ⟨10, 30⟩)] now_ts s).bucket 6).peak_online = 20 ∧
    ((week_stats [(now_ts - days 6 - 720, ⟨13, 40⟩),
        (now_ts - days 6 + 18000, ⟨40, 40⟩), (now_ts - days 1, ⟨20, 30⟩),
        (now_ts, ⟨10, 30⟩)] now_ts s).bucket 1).average_online = 26 ∧
    ((week_stats [(now_ts - days 6 - 720, ⟨13, 40⟩),
        (now_ts - days 6 + 18000, ⟨40, 40⟩), (now_ts - days 1, ⟨20, 30⟩),
        (now_ts, ⟨10, 30⟩)] now_ts s).bucket 6).average_online = 20 ∧
    ((week_stats [(now_ts - days 6 - 720, ⟨13, 40⟩),
        (now_ts - days 6 + 18000, ⟨40, 40⟩), (now_ts - days 1, ⟨20, 30⟩),
        (now_ts, ⟨10, 30⟩)] now_ts s).bucket 1).peak_online = 40 := by
  have hb6 : (week_stats [(now_ts - days 6 - 720, ⟨13, 40⟩),
      (now_ts - days 6 + 18000, ⟨40, 40⟩), (now_ts - days 1, ⟨20, 30⟩),
      (now_ts, ⟨10, 30⟩)] now_ts s).bucket 6
      = range_stats [(now_ts - days 6 - 720, ⟨13, 40⟩),
          (now_ts - days 6 + 18000, ⟨40, 40⟩), (now_ts - days 1, ⟨20, 30⟩),
          (now_ts, ⟨10, 30⟩)] (.halfOpen (now_ts - s - days 1) (now_ts - s)) := rfl
  have hb1 : (week_stats [(now_ts - days 6 - 720, ⟨13, 40⟩),
      (now_ts - days 6 + 18000, ⟨40, 40⟩), (now_ts - days 1, ⟨20, 30⟩),
      (now_ts, ⟨10, 30⟩)] now_ts s).bucket 1
      = range_stats [(now_ts - days 6 - 720, ⟨13, 40⟩),
          (now_ts - days 6 + 18000, ⟨40, 40⟩), (now_ts - days 1, ⟨20, 30⟩),
          (now_ts, ⟨10, 30⟩)] (.halfOpen (now_ts - s - days 6) (now_ts - s - days 5)) := rfl
  have e61 : TsRange.holds (.halfOpen (now_ts - s - days 1) (now_ts - s))
      (now_ts - days 6 - 720) = false := by
    simp [TsRange.holds, days]
    omega
  have e62 : TsRange.holds (.halfOpen (now_ts - s - days 1) (now_ts - s))
      (now_ts - days 6 + 18000) = false := by
    simp [TsRange.holds, days]
    omega
  have e63 : TsRange.holds (.halfOpen (now_ts - s - days 1) (now_ts - s))
      (now_ts - days 1) = true := by
    simp [TsRange.holds, days]
    omega
  have e64 : TsRange.holds (.halfOpen (now_ts - s - days 1) (now_ts - s))
      now_ts = false := by
    simp [TsRange.holds, days]
    omega
  have e11 : TsRange.holds (.halfOpen (now_ts - s - days 6) (now_ts - s - days 5))
      (now_ts - days 6 - 720) = true := by
    simp [TsRange.holds, days]
    omega
  have e12 : TsRange.holds (.halfOpen (now_ts - s - days 6) (now_ts - s - days 5))
      (now_ts - days 6 + 18000) = true := by
    simp [TsRange.holds, days]
    omega
  have e13 : TsRange.holds (.halfOpen (now_ts - s - days 6) (now_ts - s - days 5))
      (now_ts - days 1) = false := by
    simp [TsRange.holds, days]
    omega
  have e14 : TsRange.holds (.halfOpen (now_ts - s - days 6) (now_ts - s - days 5))
      now_ts = false := by
    simp [TsRange.holds, days]
    omega
  have hr6 : ([(now_ts - days 6 - 720, (⟨13, 40⟩ : HistoryEntry)),
      (now_ts - days 6 + 18000, ⟨40, 40⟩), (now_ts - days 1, ⟨20, 30⟩),
      (now_ts, ⟨10, 30⟩)].filter
        (fun p => TsRange.holds (.halfOpen (now_ts - s - days 1) (now_ts - s)) p.1))
      = [(now_ts - days 1, ⟨20, 30⟩)] := by
    simp only [List.filter, e61, e62, e63, e64]
  have hr1 : ([(now_ts - days 6 - 720, (⟨13, 40⟩ : HistoryEntry)),
      (now_ts - days 6 + 18000, ⟨40, 40⟩), (now_ts - days 1, ⟨20, 30⟩),
      (now_ts, ⟨10, 30⟩)].filter
        (fun p => TsRange.holds (.halfOpen (now_ts - s - days 6) (now_ts - s - days 5)) p.1))
      = [(now_ts - days 6 - 720, ⟨13, 40⟩), (now_ts - days 6 + 18000, ⟨40, 40⟩)] := by
    simp only [List.filter, e11, e12, e13, e14]
  refine ⟨?_, ?_, ?_, ?_⟩
  · rw [hb6, range_stats, hr6]
    simp only [List.map_cons, List.map_nil]
    decide
  · rw [hb1, range_stats, hr1]
    simp only [List.map_cons, List.map_nil]
    decide
  · rw [hb6, range_stats, hr6]
    simp only [List.map_cons, List.map_nil]
    decide
  · rw [hb1, range_stats, hr1]
    simp only [List.map_cons, List.map_nil]
    decide

/-- C8 amended witness: the concrete instance at 2021-02-14 08:12:43. -/
theorem week_stats_day_bucket_combines_witness :
    ((week_stats c8_history 1613290363 29563).bucket 1).average_online = 26 ∧
    ((week_stats c8_history 1613290363 29563).bucket 1).peak_online = 40 :=
  ⟨(week_stats_day_bucket_combines 1613290363 29563 (by decide) (by decide)).2.1,
   (week_stats_day_bucket_combines 1613290363 29563 (by decide) (by decide)).2.2.2⟩

end MinecraftStatus
